import Mathlib

/-!
Shallow embedding of the openraft core fragments under verification:
log purging (`LogHandler`), server-state transitions (`ServerStateHandler`),
snapshot streaming (`StreamingState::receive`), and the per-peer
replication task (`ReplicationCore`).

Machine integers (`u64`) are modelled as `Nat`; Rust's `saturating_sub`
coincides with `Nat` subtraction.  Fallible Rust code returning
`Result<_, E>` is modelled with `Except`.
-/

namespace OpenRaft

/-- Log id of an entry: `(term, index)`.  In the source `LogId` is
`(leader_id, index)` where the committed leader id is ordered by term, so the
derived total order is lexicographic on `(term, index)`. -/
structure LogId where
  term : Nat
  index : Nat
deriving DecidableEq, Repr

/-- Strict order on `LogId`: lexicographic on `(term, index)`, as derived by
`#[derive(PartialOrd, Ord)]` in the source. -/
def LogId.lt (a b : LogId) : Prop :=
  a.term < b.term ∨ (a.term = b.term ∧ a.index < b.index)

/-- Non-strict order on `LogId`. -/
def LogId.le (a b : LogId) : Prop :=
  LogId.lt a b ∨ a = b

instance : DecidablePred (fun p : LogId × LogId => LogId.lt p.1 p.2) := by
  intro p
  unfold LogId.lt
  infer_instance

instance (a b : LogId) : Decidable (LogId.lt a b) := by
  unfold LogId.lt
  infer_instance

instance (a b : LogId) : Decidable (LogId.le a b) := by
  unfold LogId.le
  infer_instance

/-- Rust `Option<LogId>` strict order: `None < Some _`, `Some a < Some b` iff
`a < b`. -/
def optLt : Option LogId → Option LogId → Prop
  | none, none => False
  | none, some _ => True
  | some _, none => False
  | some a, some b => LogId.lt a b

/-- Rust `Option<LogId>` non-strict order. -/
def optLe : Option LogId → Option LogId → Prop
  | none, _ => True
  | some _, none => False
  | some a, some b => LogId.le a b

instance (a b : Option LogId) : Decidable (optLt a b) := by
  cases a <;> cases b <;> unfold optLt <;> infer_instance

instance (a b : Option LogId) : Decidable (optLe a b) := by
  cases a <;> cases b <;> unfold optLe <;> infer_instance

/-- Source `LogIdOptionExt::next_index`: index right after the given log id;
`None` means the log is empty, so the next index is `0`. -/
def nextIndex : Option LogId → Nat
  | none => 0
  | some l => l.index + 1

/-- Modelled from the spec: `LogIdList` (§3) keeps "the first entry of every
leader term plus the last log id, plus the last-purged log id as the lower
bound", strictly increasing.  The struct itself is not under `src/`; its
behaviour is pinned by `purge_log_test.rs` and the testing suite. -/
structure LogIdList where
  key_log_ids : List LogId
deriving DecidableEq, Repr

/-- Last key of the key list, `LogIdList::last`. -/
def LogIdList.last (l : LogIdList) : Option LogId :=
  l.key_log_ids.getLast?

/-- Greatest key whose index is at most `i`, assuming the key list is sorted
by index (the model of the binary search used by `LogIdList::get`). -/
def lastKeyLe : List LogId → Nat → Option LogId
  | [], _ => none
  | k :: ks, i =>
    if k.index ≤ i then
      match lastKeyLe ks i with
      | some r => some r
      | none => some k
    else
      none

/-- Modelled from the spec: `LogIdList::get(i)` "returns the log id at index
`i` by binary searching the key list and reconstructing the term" (§3).
Returns `none` when `i` is below the first key or above the last key. -/
def LogIdList.get (l : LogIdList) (i : Nat) : Option LogId :=
  match lastKeyLe l.key_log_ids i, l.key_log_ids.getLast? with
  | some k, some lst =>
    if i ≤ lst.index then some (LogId.mk k.term i) else none
  | _, _ => none

/-- Modelled from the spec: `LogIdList::purge(upto)` removes key log ids
below `upto` and keeps `upto` as the new lower bound; when `upto` goes past
the last key the whole list collapses to `[upto]` (behaviour pinned by
`purge_log_test.rs`). -/
def LogIdList.purge (l : LogIdList) (upto : LogId) : LogIdList :=
  if nextIndex l.last ≤ upto.index then
    LogIdList.mk [upto]
  else if upto.index < (l.key_log_ids.headD upto).index then
    l
  else
    let tail := l.key_log_ids.dropWhile (fun k => decide (k.index < upto.index))
    match tail.head? with
    | some k => if k.index = upto.index then LogIdList.mk tail else LogIdList.mk (upto :: tail)
    | none => LogIdList.mk (upto :: tail)

/-- Snapshot metadata: last log id covered, membership log id and snapshot id
(`SnapshotMeta` in the source; the membership content itself is irrelevant to
the claims, only its log id enters the signature). -/
structure SnapshotMeta where
  last_log_id : Option LogId
  last_membership_log_id : Option LogId
  snapshot_id : String
deriving DecidableEq, Repr

/-- Source `SnapshotSignature`: the part of the metadata used to identify a snapshot
in error subjects. -/
structure SnapshotSignature where
  last_log_id : Option LogId
  last_membership_log_id : Option LogId
  snapshot_id : String
deriving DecidableEq, Repr

/-- Source `SnapshotMeta::signature`. -/
def SnapshotMeta.signature (m : SnapshotMeta) : SnapshotSignature :=
  SnapshotSignature.mk m.last_log_id m.last_membership_log_id m.snapshot_id

/-- Server states, `ServerState` in the source. -/
inductive ServerState where
  | Learner
  | Follower
  | Candidate
  | Leader
deriving DecidableEq, Repr

/-- Engine commands relevant to the claims (`engine::Command`). -/
inductive Command where
  | PurgeLog (upto : LogId)
  | BecomeLeader
  | QuitLeader
deriving DecidableEq, Repr

/-- Modelled from the spec: the `RaftState` fields used by the log and
server-state handlers (`RaftState` itself is not under `src/`; field
behaviour is pinned by `purge_log_test.rs`). -/
structure RaftState where
  log_ids : LogIdList
  purged_next : Nat
  purge_upto : Option LogId
  snapshot_meta : SnapshotMeta
  server_state : ServerState
deriving DecidableEq, Repr

/-- Modelled from the spec: `RaftState::last_purged_log_id` is the lower
bound kept in the key-log-id list, absent until anything was purged. -/
def RaftState.last_purged_log_id (st : RaftState) : Option LogId :=
  if st.purged_next = 0 then none else st.log_ids.key_log_ids.head?

/-- Modelled from the spec: `RaftState::last_log_id` is the last key log id. -/
def RaftState.last_log_id (st : RaftState) : Option LogId :=
  st.log_ids.key_log_ids.getLast?

/-- Modelled from the spec: `RaftState::purge_log(upto)` advances
`purged_next` and purges the key-log-id list. -/
def RaftState.purge_log_state (st : RaftState) (upto : LogId) : RaftState :=
  { st with purged_next := upto.index + 1, log_ids := st.log_ids.purge upto }

/-- Engine config fields used by `LogHandler` (`EngineConfig`). -/
structure EngineConfig where
  max_in_snapshot_log_to_keep : Nat
  purge_batch_size : Nat
deriving DecidableEq, Repr

/-- The exclusive purge bound of `LogHandler::calc_purge_upto`:
`snapshot_meta.last_log_id.next_index().saturating_sub(max_keep)`. -/
def purgeEnd (config : EngineConfig) (st : RaftState) : Nat :=
  nextIndex st.snapshot_meta.last_log_id - config.max_in_snapshot_log_to_keep

/-- Source `LogHandler::calc_purge_upto`: log id up to which to purge, inclusive.
Purging is declined while `last_purged.next_index() + batch_size > purge_end`,
otherwise the log id at index `purge_end - 1` is returned. -/
def calc_purge_upto (config : EngineConfig) (st : RaftState) : Option LogId :=
  let batch_size := config.purge_batch_size
  if nextIndex st.last_purged_log_id + batch_size > purgeEnd config st then
    none
  else
    st.log_ids.get (purgeEnd config st - 1)

/-- Source `LogHandler::purge_log`: purge up to `RaftState.purge_upto()` inclusive;
a no-op when `purge_upto <= last_purged_log_id`, otherwise the state is
purged and a `PurgeLog` command is emitted. -/
def purge_log (st : RaftState) : RaftState × List Command :=
  if optLe st.purge_upto st.last_purged_log_id then
    (st, [])
  else
    match st.purge_upto with
    | none => (st, [])
    | some upto => (st.purge_log_state upto, [Command.PurgeLog upto])

/-- Source `ServerStateHandler::update_server_state_if_changed`, as a function of the
previous `server_state` and the freshly computed one (`calc_server_state` is
an input here): returns the new stored state and the emitted commands. -/
def update_server_state_if_changed (prev computed : ServerState) :
    ServerState × List Command :=
  if prev = computed then
    (prev, [])
  else if prev ≠ ServerState.Leader ∧ computed = ServerState.Leader then
    (computed, [Command.BecomeLeader])
  else if prev = ServerState.Leader ∧ computed ≠ ServerState.Leader then
    (computed, [Command.QuitLeader])
  else
    (computed, [])

/-- Vote: `(term, node_id, committed)` (`Vote` in the source). -/
structure Vote where
  term : Nat
  node_id : Nat
  committed : Bool
deriving DecidableEq, Repr

/-- Error subjects of `StorageError` (`ErrorSubject`). -/
inductive ErrorSubject where
  | Vote
  | Log (id : LogId)
  | LogIndex (i : Nat)
  | Logs
  | Snapshot (sig : SnapshotSignature)
  | StateMachine
deriving DecidableEq, Repr

/-- Error verbs of `StorageError` (`ErrorVerb`). -/
inductive ErrorVerb where
  | Read
  | Write
  | Seek
  | Delete
  | Flush
deriving DecidableEq, Repr

/-- Source `StorageError` with an I/O cause: the `(subject, verb)` pair that
classifies the failure. -/
structure StorageError where
  subject : ErrorSubject
  verb : ErrorVerb
deriving DecidableEq, Repr

/-- Defensive-check violations relevant to the claims (`Violation`). -/
inductive Violation where
  | RangeEmpty (lo : Option Nat) (hi : Option Nat)
  | LogIndexNotFound (want : Nat) (got : Option Nat)
deriving DecidableEq, Repr

/-- Source `DefensiveError`: a storage-boundary invariant violation. -/
structure DefensiveError where
  subject : ErrorSubject
  violation : Violation
deriving DecidableEq, Repr

/-- A log entry; only its log id matters to the claims (payload elided as in
`Entry { log_id, payload }`). -/
structure Entry where
  log_id : LogId
deriving DecidableEq, Repr

/-- A log store, as the partial map from index to the stored entry.  This is
the abstract state behind a `RaftLogReader`. -/
def LogStore : Type := Nat → Option Entry

/-- Modelled from the spec: the storage contract of
`try_get_log_entries(range)` — return the entries at consecutive indexes
`[start, start+count)` or fail with a `StorageError` when one is missing
(§4.5: the range must lie within the stored log). -/
def fetchLogRange (store : LogStore) : Nat → Nat → Except StorageError (List Entry)
  | _, 0 => Except.ok []
  | start, n + 1 =>
    match store start with
    | none => Except.error (StorageError.mk (ErrorSubject.LogIndex start) ErrorVerb.Read)
    | some e =>
      match fetchLogRange store (start + 1) n with
      | Except.error er => Except.error er
      | Except.ok rest => Except.ok (e :: rest)

/-- Modelled from the spec: `RaftLogReader::try_get_log_entries(start..stop)`
in normal (non-defensive) mode; an empty range yields an empty list. -/
def try_get_log_entries (store : LogStore) (start stop : Nat) :
    Except StorageError (List Entry) :=
  fetchLogRange store start (stop - start)

/-- Modelled from the spec: the defensive wrapper of `get_log_entries`
rejects inverted and empty ranges with `Violation::RangeEmpty` and gaps with
`Violation::LogIndexNotFound` (§8 boundary cases; pinned by
`Suite::df_get_log_entries`). -/
def dfFetchLogRange (store : LogStore) : Nat → Nat → Except DefensiveError (List Entry)
  | _, 0 => Except.ok []
  | start, n + 1 =>
    match store start with
    | none =>
      Except.error
        (DefensiveError.mk (ErrorSubject.LogIndex start) (Violation.LogIndexNotFound start none))
    | some e =>
      if e.log_id.index = start then
        match dfFetchLogRange store (start + 1) n with
        | Except.error er => Except.error er
        | Except.ok rest => Except.ok (e :: rest)
      else
        Except.error
          (DefensiveError.mk (ErrorSubject.LogIndex start)
            (Violation.LogIndexNotFound start (some e.log_id.index)))

/-- Modelled from the spec: defensive `get_log_entries(start..stop)`.  The
reported empty-range violation carries the inclusive bounds
`(start, stop - 1)`, as pinned by `Suite::df_get_log_entries`. -/
def df_get_log_entries (store : LogStore) (start stop : Nat) :
    Except DefensiveError (List Entry) :=
  if stop ≤ start then
    Except.error
      (DefensiveError.mk ErrorSubject.Logs (Violation.RangeEmpty (some start) (some (stop - 1))))
  else
    dfFetchLogRange store start (stop - start)

/-- Source `LogIdRange { prev_log_id, last_log_id }`: the half-open range of logs
`(prev, last]` to replicate. -/
structure LogIdRange where
  prev_log_id : Option LogId
  last_log_id : Option LogId
deriving DecidableEq, Repr

/-- Source `AppendEntriesRequest` as built by `ReplicationCore::send_log_entries`. -/
structure AppendEntriesRequest where
  vote : Vote
  prev_log_id : Option LogId
  leader_commit : Option LogId
  entries : List Entry
deriving DecidableEq, Repr

/-- Source `AppendEntriesResponse`. -/
inductive AppendEntriesResponse where
  | Success
  | HigherVote (v : Vote)
  | Conflict
deriving DecidableEq, Repr

/-- Result of a replication action reported to RaftCore
(`ReplicationResult`). -/
inductive ReplicationResult where
  | Matching (m : Option LogId)
  | Conflict (c : LogId)
deriving DecidableEq, Repr

/-- Transport-level RPC failures (`RPCError`); the timeout case is produced
by the elapsed heartbeat deadline in `send_log_entries`. -/
inductive RPCErrorKind where
  | Timeout
  | Unreachable
  | RemoteNetwork
deriving DecidableEq, Repr

/-- Rendering of an RPC error, standing for `err.to_string()` in the
progress-failure message. -/
def describeRPCError : RPCErrorKind → String
  | RPCErrorKind.Timeout => "timeout"
  | RPCErrorKind.Unreachable => "unreachable"
  | RPCErrorKind.RemoteNetwork => "remote network error"

/-- Source `ReplicationError`: the error type of one replication action. -/
inductive ReplicationError where
  | Closed
  | HigherVote (higher : Vote)
  | StorageError (e : StorageError)
  | RPCError (e : RPCErrorKind)
deriving DecidableEq, Repr

/-- View of an `Except` as a sum, to transport decidable equality. -/
def exceptToSum {e a : Type} : Except e a → Sum e a
  | Except.error x => Sum.inl x
  | Except.ok x => Sum.inr x

instance {e a : Type} [DecidableEq e] [DecidableEq a] : DecidableEq (Except e a) :=
  fun x y =>
    decidable_of_iff (exceptToSum x = exceptToSum y)
      (by cases x <;> cases y <;> simp [exceptToSum])

/-- Messages a replication task sends to RaftCore (`RaftMsg` variants used by
`ReplicationCore`).  A progress update carries `Ok(result)` or the rendered
error string `Err(err.to_string())`. -/
inductive RaftMsg where
  | UpdateReplicationProgress (target : Nat) (id : Nat)
      (result : Except String ReplicationResult)
  | HigherVote (target : Nat) (higher : Vote) (vote : Vote)
  | ReplicationFatal
deriving DecidableEq, Repr

/-- The per-peer state of `ReplicationCore` used by the claims: the target
node, the session vote, the last known committed log id and the matching
log id. -/
structure ReplState where
  target : Nat
  session_vote : Vote
  committed : Option LogId
  matching : Option LogId
deriving DecidableEq, Repr

/-- Source `ReplicationCore::update_matching`: advance `matching` and report
`Matching(new_matching)` only when it strictly increases. -/
def update_matching (st : ReplState) (id : Nat) (new_matching : Option LogId) :
    ReplState × List RaftMsg :=
  if optLt st.matching new_matching then
    ({ st with matching := new_matching },
      [RaftMsg.UpdateReplicationProgress st.target id
        (Except.ok (ReplicationResult.Matching new_matching))])
  else
    (st, [])

/-- Source `ReplicationCore::update_conflicting`: report `Conflict(conflict)`. -/
def update_conflicting (st : ReplState) (id : Nat) (conflict : LogId) :
    ReplState × List RaftMsg :=
  (st,
    [RaftMsg.UpdateReplicationProgress st.target id
      (Except.ok (ReplicationResult.Conflict conflict))])

/-- The fetch-and-build stage of `ReplicationCore::send_log_entries`: for the
range `(prev, last]` fetch `[prev.next_index(), last.next_index())` from the
log reader (nothing when the range is empty) and build the
`AppendEntriesRequest`; a storage failure is propagated. -/
def send_log_entries_payload (store : LogStore) (st : ReplState) (req : LogIdRange) :
    Except StorageError AppendEntriesRequest :=
  let start := nextIndex req.prev_log_id
  let stop := nextIndex req.last_log_id
  let logsE : Except StorageError (List Entry) :=
    if start = stop then Except.ok []
    else try_get_log_entries store start stop
  match logsE with
  | Except.error e => Except.error e
  | Except.ok logs =>
    Except.ok
      (AppendEntriesRequest.mk st.session_vote req.prev_log_id st.committed logs)

/-- The response-handling stage of `ReplicationCore::send_log_entries`:
`Success` advances matching to the range's last log id, `HigherVote` fails
with `ReplicationError::HigherVote`, `Conflict` reports the conflicting
`prev_log_id` (the source unwraps `prev_log_id`, so a conflict on a `None`
prev is a panic, modelled as `none`). -/
def handle_append_entries_resp (st : ReplState) (id : Nat) (req : LogIdRange)
    (resp : AppendEntriesResponse) :
    Option (Except ReplicationError (ReplState × List RaftMsg)) :=
  match resp with
  | AppendEntriesResponse.Success =>
    some (Except.ok (update_matching st id req.last_log_id))
  | AppendEntriesResponse.HigherVote v =>
    some (Except.error (ReplicationError.HigherVote v))
  | AppendEntriesResponse.Conflict =>
    match req.prev_log_id with
    | none => none
    | some c => some (Except.ok (update_conflicting st id c))

/-- Whether the replication task's main loop keeps running after one step. -/
inductive LoopControl where
  | run
  | terminate
deriving DecidableEq, Repr

/-- The error dispatch of one iteration of `ReplicationCore::main`: given the
result of the replication action, return the untouched per-peer state, the
messages sent to RaftCore and whether the loop continues. -/
def handle_replication_result (st : ReplState) (repl_id : Nat)
    (res : Except ReplicationError Unit) : ReplState × List RaftMsg × LoopControl :=
  match res with
  | Except.ok _ => (st, [], LoopControl.run)
  | Except.error e =>
    match e with
    | ReplicationError.Closed => (st, [], LoopControl.terminate)
    | ReplicationError.HigherVote h =>
      (st, [RaftMsg.HigherVote st.target h st.session_vote], LoopControl.terminate)
    | ReplicationError.StorageError _ =>
      (st, [RaftMsg.ReplicationFatal], LoopControl.terminate)
    | ReplicationError.RPCError err =>
      (st,
        [RaftMsg.UpdateReplicationProgress st.target repl_id
          (Except.error (describeRPCError err))],
        LoopControl.run)

/-- The snapshot writer handed out by `begin_receiving_snapshot()`: a
seekable byte sink with a position and contents; `fail_seek` / `fail_write`
inject the I/O failures of the underlying device. -/
structure SnapshotDataWriter where
  pos : Nat
  content : List Nat
  fail_seek : Bool
  fail_write : Bool
deriving DecidableEq, Repr

/-- Source `seek(SeekFrom::Start(o))` on the snapshot writer. -/
def SnapshotDataWriter.seekTo (w : SnapshotDataWriter) (o : Nat) :
    Except Unit SnapshotDataWriter :=
  if w.fail_seek then Except.error () else Except.ok { w with pos := o }

/-- Overwrite `content` with `d` starting at byte position `p`, zero-padding
any gap, as a byte-addressed file write does. -/
def writeAt (content : List Nat) (p : Nat) (d : List Nat) : List Nat :=
  content.take p ++ List.replicate (p - content.length) 0 ++ d ++ content.drop (p + d.length)

/-- Source `write_all(d)` on the snapshot writer: write at the current position and
advance it. -/
def SnapshotDataWriter.writeAll (w : SnapshotDataWriter) (d : List Nat) :
    Except Unit SnapshotDataWriter :=
  if w.fail_write then Except.error ()
  else Except.ok { w with content := writeAt w.content w.pos d, pos := w.pos + d.length }

/-- Source `InstallSnapshotRequest { vote, meta, offset, data, done }`. -/
structure InstallSnapshotRequest where
  vote : Vote
  meta : SnapshotMeta
  offset : Nat
  data : List Nat
  done : Bool
deriving DecidableEq, Repr

/-- Source `StreamingState { offset, snapshot_id, snapshot_data }`: an active
snapshot-install session on the follower. -/
structure StreamingState where
  offset : Nat
  snapshot_id : String
  snapshot_data : SnapshotDataWriter
deriving DecidableEq, Repr

/-- Source `StreamingState::receive(req)`: seek to `req.offset` when it differs from
the current offset (Seek failure reported under subject
`Snapshot(req.meta.signature())`), write `req.data` (Write failure likewise),
advance the offset by the bytes written and return `req.done`. -/
def StreamingState.receive (st : StreamingState) (req : InstallSnapshotRequest) :
    Except StorageError (StreamingState × Bool) :=
  let st1E : Except StorageError StreamingState :=
    if req.offset ≠ st.offset then
      match st.snapshot_data.seekTo req.offset with
      | Except.error _ =>
        Except.error
          (StorageError.mk (ErrorSubject.Snapshot req.meta.signature) ErrorVerb.Seek)
      | Except.ok w => Except.ok { st with snapshot_data := w, offset := req.offset }
    else
      Except.ok st
  match st1E with
  | Except.error e => Except.error e
  | Except.ok st1 =>
    match st1.snapshot_data.writeAll req.data with
    | Except.error _ =>
      Except.error
        (StorageError.mk (ErrorSubject.Snapshot req.meta.signature) ErrorVerb.Write)
    | Except.ok w =>
      Except.ok
        ({ st1 with snapshot_data := w, offset := st1.offset + req.data.length }, req.done)

/-- The `LogIdList` invariant (§3): key log ids are strictly increasing, both
in index and in `(term, index)` order; equivalently, indexes strictly
increase and terms never decrease. -/
def KeysSorted (ks : List LogId) : Prop :=
  ks.Pairwise (fun a b => a.index < b.index ∧ a.term ≤ b.term)

instance (ks : List LogId) : Decidable (KeysSorted ks) := by
  unfold KeysSorted
  exact List.instDecidablePairwise ks

/-- Replace only the snapshot id of a request's metadata, keeping vote,
offset, data and done intact. -/
def setSnapshotId (req : InstallSnapshotRequest) (sid : String) : InstallSnapshotRequest :=
  { req with meta := { req.meta with snapshot_id := sid } }

/-- Fixture for C1: a single-term log with keys at indexes 0 and 10 and a
snapshot at log id (1, 10). -/
def stC1 : RaftState :=
  { log_ids := LogIdList.mk [LogId.mk 1 0, LogId.mk 1 10], purged_next := 0,
    purge_upto := none,
    snapshot_meta := SnapshotMeta.mk (some (LogId.mk 1 10)) none "snap-1",
    server_state := ServerState.Follower }

/-- Fixture for C1 counterexample: keep no snapshotted logs, purge batch 1. -/
def cfgC1 : EngineConfig := EngineConfig.mk 0 1

/-- Fixture for C1 witness: keep two snapshotted logs, purge batch 1. -/
def cfgC1w : EngineConfig := EngineConfig.mk 2 1

/-- Fixture for C2: a log store holding entries at indexes 1 to 10 of
term 1. -/
def storeC2 : LogStore := fun i =>
  if 1 ≤ i ∧ i ≤ 10 then some (Entry.mk (LogId.mk 1 i)) else none

/-- Fixture for C2: replication state of target 2 at vote (1, 0). -/
def replC2 : ReplState :=
  ReplState.mk 2 (Vote.mk 1 0 true) (some (LogId.mk 1 3)) (some (LogId.mk 1 2))

/-- Fixture for C3: a healthy in-progress streaming session at offset 3. -/
def stC3 : StreamingState :=
  StreamingState.mk 3 "snap-a" (SnapshotDataWriter.mk 3 [7, 7, 7] false false)

/-- Fixture for C3: a retransmitted chunk at offset 1. -/
def reqC3 : InstallSnapshotRequest :=
  InstallSnapshotRequest.mk (Vote.mk 1 0 true)
    (SnapshotMeta.mk (some (LogId.mk 1 9)) none "snap-a") 1 [5, 6] true

/-- Fixture for C4 and C5: replication state of target 3 with matching at
log id (1, 5). -/
def replC5 : ReplState :=
  ReplState.mk 3 (Vote.mk 2 1 true) (some (LogId.mk 1 5)) (some (LogId.mk 1 5))

/-- Fixture for C5 counterexample: a heartbeat range at the matching point. -/
def rngC5 : LogIdRange := LogIdRange.mk (some (LogId.mk 1 5)) (some (LogId.mk 1 5))

/-- Fixture for C5 witness: a strictly advancing range. -/
def rngC5w : LogIdRange := LogIdRange.mk (some (LogId.mk 1 5)) (some (LogId.mk 1 8))

/-- Fixture for C7: the purge-test engine state (keys (2,2), (4,4), (4,6),
purged next 3) with purge_upto (1,1), already below the purged bound. -/
def stC7 : RaftState :=
  { log_ids := LogIdList.mk [LogId.mk 2 2, LogId.mk 4 4, LogId.mk 4 6], purged_next := 3,
    purge_upto := some (LogId.mk 1 1),
    snapshot_meta := SnapshotMeta.mk none none "",
    server_state := ServerState.Follower }

/-- Fixture for C10: the purge-test engine state with purge_upto (4,7), one
past the last log id (4,6). -/
def stC10 : RaftState :=
  { log_ids := LogIdList.mk [LogId.mk 2 2, LogId.mk 4 4, LogId.mk 4 6], purged_next := 3,
    purge_upto := some (LogId.mk 4 7),
    snapshot_meta := SnapshotMeta.mk none none "",
    server_state := ServerState.Follower }

/-- Fixture for C9: a streaming session whose writer accepts everything. -/
def stC9 : StreamingState :=
  StreamingState.mk 0 "snap-session" (SnapshotDataWriter.mk 0 [] false false)

/-- Fixture for C9: a chunk carrying the session's snapshot id. -/
def reqC9 : InstallSnapshotRequest :=
  InstallSnapshotRequest.mk (Vote.mk 1 0 true)
    (SnapshotMeta.mk (some (LogId.mk 1 4)) none "snap-session") 0 [1, 2, 3] true

/-- Fixture for C9: the streaming state after receiving the first chunk. -/
def resC9 : StreamingState :=
  StreamingState.mk 3 "snap-session" (SnapshotDataWriter.mk 3 [1, 2, 3] false false)

theorem LogId.le_rfl (a : LogId) : LogId.le a a := Or.inr rfl

theorem optLe_rfl (a : Option LogId) : optLe a a := by
  cases a
  · trivial
  · exact Or.inr rfl

theorem optLe_of_optLt {a b : Option LogId} (h : optLt a b) : optLe a b := by
  cases a with
  | none => cases b <;> trivial
  | some x =>
    cases b with
    | none => exact absurd h not_false
    | some y => exact Or.inl h

theorem LogId.le_of_comps {a b : LogId} (ht : a.term ≤ b.term) (hi : a.index ≤ b.index) :
    LogId.le a b := by
  rcases Nat.lt_or_ge a.term b.term with h | h
  · exact Or.inl (Or.inl h)
  · have heq : a.term = b.term := Nat.le_antisymm ht h
    rcases Nat.lt_or_ge a.index b.index with h2 | h2
    · exact Or.inl (Or.inr ⟨heq, h2⟩)
    · have heqi : a.index = b.index := Nat.le_antisymm hi h2
      refine Or.inr ?_
      cases a
      cases b
      simp only at heq heqi
      rw [heq, heqi]

/-- C7: purging up to a bound at or below the already-purged prefix is a
no-op: the state is unchanged and no `PurgeLog` command is emitted; hence
`purge_logs_upto(x)` is idempotent for `x ≤ last_purged`. -/
theorem purge_log_noop (st : RaftState) (h : optLe st.purge_upto st.last_purged_log_id) :
    purge_log st = (st, []) := by
  unfold purge_log
  rw [if_pos h]

theorem purge_log_noop_witness :
    optLe stC7.purge_upto stC7.last_purged_log_id ∧ purge_log stC7 = (stC7, []) :=
  ⟨by decide, purge_log_noop stC7 (by decide)⟩

/-- C6: `update_server_state_if_changed` always stores the recomputed state,
emits `BecomeLeader` exactly on a non-Leader-to-Leader change, `QuitLeader`
exactly on a Leader-to-non-Leader change, and nothing otherwise. -/
theorem update_server_state_transitions (prev computed : ServerState) :
    (update_server_state_if_changed prev computed).1 = computed ∧
    ((update_server_state_if_changed prev computed).2 = [Command.BecomeLeader] ↔
      (¬ prev = ServerState.Leader ∧ computed = ServerState.Leader)) ∧
    ((update_server_state_if_changed prev computed).2 = [Command.QuitLeader] ↔
      (prev = ServerState.Leader ∧ ¬ computed = ServerState.Leader)) ∧
    ((prev = ServerState.Leader ↔ computed = ServerState.Leader) →
      (update_server_state_if_changed prev computed).2 = []) := by
  cases prev <;> cases computed <;> decide

theorem update_server_state_transitions_witness :
    (update_server_state_if_changed ServerState.Candidate ServerState.Leader).2 =
      [Command.BecomeLeader] :=
  (update_server_state_transitions ServerState.Candidate ServerState.Leader).2.1.mpr
    (by decide)

/-- C4: the replication task's error dispatch: an RPC error (timeout
included) is reported as a progress failure and the loop continues with the
state (and its matching) untouched; a higher vote is forwarded and the task
terminates; a storage error sends `ReplicationFatal` and terminates; a
closed channel terminates silently. -/
theorem replication_error_propagation (st : ReplState) (id : Nat) :
    (∀ e, handle_replication_result st id (Except.error (ReplicationError.RPCError e)) =
      (st, [RaftMsg.UpdateReplicationProgress st.target id
        (Except.error (describeRPCError e))], LoopControl.run)) ∧
    (∀ h, handle_replication_result st id (Except.error (ReplicationError.HigherVote h)) =
      (st, [RaftMsg.HigherVote st.target h st.session_vote], LoopControl.terminate)) ∧
    (∀ e, handle_replication_result st id (Except.error (ReplicationError.StorageError e)) =
      (st, [RaftMsg.ReplicationFatal], LoopControl.terminate)) ∧
    handle_replication_result st id (Except.error ReplicationError.Closed) =
      (st, [], LoopControl.terminate) :=
  ⟨fun _ => rfl, fun _ => rfl, fun _ => rfl, rfl⟩

/-- C8: fetching the empty range `x..x` succeeds with no entries in normal
mode, while the defensive wrapper rejects it with a `RangeEmpty`
violation. -/
theorem get_log_entries_empty_range (store : LogStore) (x : Nat) :
    try_get_log_entries store x x = Except.ok [] ∧
    df_get_log_entries store x x =
      Except.error (DefensiveError.mk ErrorSubject.Logs
        (Violation.RangeEmpty (some x) (some (x - 1)))) := by
  constructor
  · unfold try_get_log_entries
    rw [Nat.sub_self]
    rfl
  · unfold df_get_log_entries
    rw [if_pos (Nat.le_refl x)]

/-- C5 counterexample: a successful heartbeat at the current matching point
(`prev = last = matching`) advances nothing and reports nothing, so a
`Matching(last)` message is not sent on every `Success` response. -/
theorem update_matching_claim_cex :
    handle_append_entries_resp replC5 7 rngC5 AppendEntriesResponse.Success =
      some (Except.ok (replC5, [])) := by decide

/-- C5 amended: `matching` is monotonically non-decreasing under
`update_matching`; a `Success` response invokes `update_matching` with the
range's last log id, which advances `matching` to it and reports
`Matching(last)` when it strictly increases, and otherwise leaves the state
unchanged and sends nothing. -/
theorem update_matching_amended (st : ReplState) (id : Nat) (req : LogIdRange) :
    (∀ nm, optLe st.matching (update_matching st id nm).1.matching) ∧
    handle_append_entries_resp st id req AppendEntriesResponse.Success =
      some (Except.ok (update_matching st id req.last_log_id)) ∧
    (optLt st.matching req.last_log_id →
      update_matching st id req.last_log_id =
        ({ st with matching := req.last_log_id },
          [RaftMsg.UpdateReplicationProgress st.target id
            (Except.ok (ReplicationResult.Matching req.last_log_id))])) ∧
    (¬ optLt st.matching req.last_log_id →
      update_matching st id req.last_log_id = (st, [])) := by
  refine ⟨?_, rfl, ?_, ?_⟩
  · intro nm
    unfold update_matching
    by_cases h : optLt st.matching nm
    · rw [if_pos h]
      exact optLe_of_optLt h
    · rw [if_neg h]
      exact optLe_rfl _
  · intro h
    unfold update_matching
    rw [if_pos h]
  · intro h
    unfold update_matching
    rw [if_neg h]

theorem update_matching_amended_witness :
    optLt replC5.matching rngC5w.last_log_id ∧
    update_matching replC5 9 rngC5w.last_log_id =
      ({ replC5 with matching := rngC5w.last_log_id },
        [RaftMsg.UpdateReplicationProgress replC5.target 9
          (Except.ok (ReplicationResult.Matching rngC5w.last_log_id))]) :=
  ⟨by decide, (update_matching_amended replC5 9 rngC5w).2.2.1 (by decide)⟩

theorem fetchLogRange_ok_spec (store : LogStore) :
    ∀ (n start : Nat) (l : List Entry), fetchLogRange store start n = Except.ok l →
      l.length = n ∧ ∀ k, k < n → l.get? k = store (start + k) := by
  intro n
  induction n with
  | zero =>
    intro start l h
    unfold fetchLogRange at h
    injection h with h2
    subst h2
    exact ⟨rfl, fun k hk => absurd hk (Nat.not_lt_zero k)⟩
  | succ n ih =>
    intro start l h
    unfold fetchLogRange at h
    cases hstore : store start with
    | none =>
      rw [hstore] at h
      cases h
    | some e =>
      rw [hstore] at h
      cases hrec : fetchLogRange store (start + 1) n with
      | error er =>
        rw [hrec] at h
        cases h
      | ok rest =>
        rw [hrec] at h
        injection h with h2
        subst h2
        obtain ⟨hlen, hget⟩ := ih (start + 1) rest hrec
        refine ⟨by simp [hlen], ?_⟩
        intro k hk
        cases k with
        | zero =>
          rw [Nat.add_zero, hstore]
          rfl
        | succ k =>
          have hk2 : k < n := by omega
          have := hget k hk2
          rw [List.get?_cons_succ, this]
          have harith : start + 1 + k = start + (k + 1) := by omega
          rw [harith]

/-- C2: for a non-empty range `(prev, last]`, the fetch stage of
`send_log_entries` either surfaces a storage fault, or builds a payload
holding exactly `last.index - prev.index` entries, namely the stored entries
at indexes `[prev.index + 1, last.index + 1)`. -/
theorem send_log_entries_exact (store : LogStore) (st : ReplState) (prev lastL : LogId)
    (hne : ¬ prev = lastL) (hidx : prev.index ≤ lastL.index) :
    (∃ e, send_log_entries_payload store st (LogIdRange.mk (some prev) (some lastL)) =
      Except.error e) ∨
    (∃ p, send_log_entries_payload store st (LogIdRange.mk (some prev) (some lastL)) =
      Except.ok p ∧ p.entries.length = lastL.index - prev.index ∧
      ∀ k, k < p.entries.length → p.entries.get? k = store (prev.index + 1 + k)) := by
  unfold send_log_entries_payload
  simp only [nextIndex]
  by_cases hss : prev.index + 1 = lastL.index + 1
  · rw [if_pos hss]
    refine Or.inr ⟨_, rfl, ?_, ?_⟩
    · simp only [List.length_nil]
      omega
    · intro k hk
      simp only [List.length_nil] at hk
      exact absurd hk (Nat.not_lt_zero k)
  · rw [if_neg hss]
    unfold try_get_log_entries
    cases hfetch : fetchLogRange store (prev.index + 1) (lastL.index + 1 - (prev.index + 1)) with
    | error e =>
      exact Or.inl ⟨e, rfl⟩
    | ok l =>
      obtain ⟨hlen, hget⟩ := fetchLogRange_ok_spec store _ _ l hfetch
      refine Or.inr ⟨_, rfl, ?_, ?_⟩
      · simp only
        omega
      · intro k hk
        simp only at hk ⊢
        exact hget k (by omega)

theorem send_log_entries_exact_witness :
    ¬ LogId.mk 1 2 = LogId.mk 1 5 ∧ (LogId.mk 1 2).index ≤ (LogId.mk 1 5).index ∧
    ((∃ e, send_log_entries_payload storeC2 replC2
        (LogIdRange.mk (some (LogId.mk 1 2)) (some (LogId.mk 1 5))) = Except.error e) ∨
      (∃ p, send_log_entries_payload storeC2 replC2
        (LogIdRange.mk (some (LogId.mk 1 2)) (some (LogId.mk 1 5))) = Except.ok p ∧
        p.entries.length = (LogId.mk 1 5).index - (LogId.mk 1 2).index ∧
        ∀ k, k < p.entries.length →
          p.entries.get? k = storeC2 ((LogId.mk 1 2).index + 1 + k))) :=
  ⟨by decide, by decide,
    send_log_entries_exact storeC2 replC2 (LogId.mk 1 2) (LogId.mk 1 5)
      (by decide) (by decide)⟩

/-- C3: a successful `receive` leaves the streaming offset (and the writer
position) at `req.offset + req.data.len()`, writes the chunk at `req.offset`
(seeking first whenever `req.offset` differs from the current offset) and
returns `req.done`; a failed `receive` reports a `StorageError` on subject
`Snapshot(req.meta.signature())` with verb `Seek` or `Write`. -/
theorem streaming_receive_spec (st : StreamingState) (req : InstallSnapshotRequest)
    (hsync : st.snapshot_data.pos = st.offset) :
    (∀ st2 d, StreamingState.receive st req = Except.ok (st2, d) →
      st2.offset = req.offset + req.data.length ∧
      d = req.done ∧
      st2.snapshot_data.pos = req.offset + req.data.length ∧
      st2.snapshot_data.content = writeAt st.snapshot_data.content req.offset req.data ∧
      st2.snapshot_id = st.snapshot_id) ∧
    (∀ e, StreamingState.receive st req = Except.error e →
      e.subject = ErrorSubject.Snapshot req.meta.signature ∧
      (e.verb = ErrorVerb.Seek ∨ e.verb = ErrorVerb.Write)) := by
  constructor
  · intro st2 d h
    unfold StreamingState.receive SnapshotDataWriter.seekTo SnapshotDataWriter.writeAll at h
    by_cases hoff : req.offset = st.offset
    · rw [if_neg (not_not_intro hoff)] at h
      by_cases hfw : st.snapshot_data.fail_write = true
      · simp [hfw] at h
      · simp only [Bool.not_eq_true] at hfw
        simp [hfw] at h
        obtain ⟨h1, h2⟩ := h
        subst h1
        subst h2
        refine ⟨by dsimp only; rw [hoff], rfl, ?_, ?_, rfl⟩
        · dsimp only
          rw [hsync, hoff]
        · dsimp only
          rw [hsync, hoff]
    · rw [if_pos hoff] at h
      by_cases hfs : st.snapshot_data.fail_seek = true
      · simp [hfs] at h
      · simp only [Bool.not_eq_true] at hfs
        by_cases hfw : st.snapshot_data.fail_write = true
        · simp [hfs, hfw] at h
        · simp only [Bool.not_eq_true] at hfw
          simp [hfs, hfw] at h
          obtain ⟨h1, h2⟩ := h
          subst h1
          subst h2
          exact ⟨rfl, rfl, rfl, rfl, rfl⟩
  · intro e h
    unfold StreamingState.receive SnapshotDataWriter.seekTo SnapshotDataWriter.writeAll at h
    by_cases hoff : req.offset = st.offset
    · rw [if_neg (not_not_intro hoff)] at h
      by_cases hfw : st.snapshot_data.fail_write = true
      · simp [hfw] at h
        subst h
        exact ⟨rfl, Or.inr rfl⟩
      · simp only [Bool.not_eq_true] at hfw
        simp [hfw] at h
    · rw [if_pos hoff] at h
      by_cases hfs : st.snapshot_data.fail_seek = true
      · simp [hfs] at h
        subst h
        exact ⟨rfl, Or.inl rfl⟩
      · simp only [Bool.not_eq_true] at hfs
        by_cases hfw : st.snapshot_data.fail_write = true
        · simp [hfs, hfw] at h
          subst h
          exact ⟨rfl, Or.inr rfl⟩
        · simp only [Bool.not_eq_true] at hfw
          simp [hfs, hfw] at h

theorem streaming_receive_spec_witness :
    stC3.snapshot_data.pos = stC3.offset ∧
    (∀ st2 d, StreamingState.receive stC3 reqC3 = Except.ok (st2, d) →
      st2.offset = reqC3.offset + reqC3.data.length ∧
      d = reqC3.done ∧
      st2.snapshot_data.pos = reqC3.offset + reqC3.data.length ∧
      st2.snapshot_data.content = writeAt stC3.snapshot_data.content reqC3.offset reqC3.data ∧
      st2.snapshot_id = stC3.snapshot_id) :=
  ⟨rfl, (streaming_receive_spec stC3 reqC3 rfl).1⟩

/-- C9: `receive` never inspects the request's snapshot id: any successful
call gives the identical seek, write, offset update and return value when
only `meta.snapshot_id` is replaced — a chunk carrying a foreign snapshot id
is written into the in-progress stream rather than rejected. -/
theorem receive_ignores_snapshot_id (st : StreamingState) (req : InstallSnapshotRequest)
    (sid : String) (st2 : StreamingState) (d : Bool)
    (hok : StreamingState.receive st req = Except.ok (st2, d)) :
    StreamingState.receive st (setSnapshotId req sid) = Except.ok (st2, d) := by
  unfold StreamingState.receive SnapshotDataWriter.seekTo SnapshotDataWriter.writeAll at hok
  unfold StreamingState.receive setSnapshotId SnapshotDataWriter.seekTo
    SnapshotDataWriter.writeAll
  dsimp only
  by_cases hoff : req.offset = st.offset
  · rw [if_neg (not_not_intro hoff)] at hok ⊢
    by_cases hfw : st.snapshot_data.fail_write = true
    · simp [hfw] at hok
    · simp only [Bool.not_eq_true] at hfw
      simp [hfw] at hok ⊢
      exact hok
  · rw [if_pos hoff] at hok ⊢
    by_cases hfs : st.snapshot_data.fail_seek = true
    · simp [hfs] at hok
    · simp only [Bool.not_eq_true] at hfs
      by_cases hfw : st.snapshot_data.fail_write = true
      · simp [hfs, hfw] at hok
      · simp only [Bool.not_eq_true] at hfw
        simp [hfs, hfw] at hok ⊢
        exact hok

theorem receive_ignores_snapshot_id_witness :
    StreamingState.receive stC9 (setSnapshotId reqC9 "a-different-snapshot") =
      Except.ok (resC9, true) :=
  receive_ignores_snapshot_id stC9 reqC9 "a-different-snapshot" resC9 true (by decide)

/-- C10: purging past the last log id is handled: the key-log-id list
collapses to the purge bound, so afterwards both `last_purged_log_id` and
`last_log_id` equal `purge_upto` (in particular `last_purged ≤ last_log`
still holds), and a single `PurgeLog` command is emitted. -/
theorem purge_log_past_last (st : RaftState) (upto : LogId)
    (hupto : st.purge_upto = some upto)
    (hpast : nextIndex st.last_log_id ≤ upto.index)
    (hgt : ¬ optLe st.purge_upto st.last_purged_log_id) :
    purge_log st = (RaftState.purge_log_state st upto, [Command.PurgeLog upto]) ∧
    (purge_log st).1.last_purged_log_id = some upto ∧
    (purge_log st).1.last_log_id = some upto ∧
    optLe (purge_log st).1.last_purged_log_id (purge_log st).1.last_log_id := by
  have hmain : purge_log st = (RaftState.purge_log_state st upto, [Command.PurgeLog upto]) := by
    unfold purge_log
    rw [if_neg hgt, hupto]
  have hkeys : (RaftState.purge_log_state st upto).log_ids = LogIdList.mk [upto] := by
    unfold RaftState.purge_log_state LogIdList.purge
    dsimp only
    rw [if_pos (show nextIndex st.log_ids.last ≤ upto.index from hpast)]
  have hpurged : (RaftState.purge_log_state st upto).last_purged_log_id = some upto := by
    unfold RaftState.last_purged_log_id
    rw [hkeys]
    dsimp only [RaftState.purge_log_state]
    rw [if_neg (Nat.succ_ne_zero upto.index)]
    rfl
  have hlast : (RaftState.purge_log_state st upto).last_log_id = some upto := by
    unfold RaftState.last_log_id
    rw [hkeys]
    rfl
  refine ⟨hmain, ?_, ?_, ?_⟩
  · rw [hmain]
    exact hpurged
  · rw [hmain]
    exact hlast
  · rw [hmain]
    dsimp only
    rw [hpurged, hlast]
    exact optLe_rfl _

theorem purge_log_past_last_witness :
    stC10.purge_upto = some (LogId.mk 4 7) ∧
    (purge_log stC10 =
      (RaftState.purge_log_state stC10 (LogId.mk 4 7), [Command.PurgeLog (LogId.mk 4 7)]) ∧
    (purge_log stC10).1.last_purged_log_id = some (LogId.mk 4 7) ∧
    (purge_log stC10).1.last_log_id = some (LogId.mk 4 7) ∧
    optLe (purge_log stC10).1.last_purged_log_id (purge_log stC10).1.last_log_id) :=
  ⟨rfl, purge_log_past_last stC10 (LogId.mk 4 7) rfl (by decide) (by decide)⟩

theorem lastKeyLe_mem : ∀ {ks : List LogId} {i : Nat} {a : LogId},
    lastKeyLe ks i = some a → a ∈ ks := by
  intro ks
  induction ks with
  | nil =>
    intro i a h
    cases h
  | cons k ks ih =>
    intro i a h
    unfold lastKeyLe at h
    by_cases hk : k.index ≤ i
    · rw [if_pos hk] at h
      cases hrec : lastKeyLe ks i with
      | some r =>
        rw [hrec] at h
        injection h with h2
        subst h2
        exact List.mem_cons_of_mem k (ih hrec)
      | none =>
        rw [hrec] at h
        injection h with h2
        subst h2
        exact List.mem_cons_self k ks
    · rw [if_neg hk] at h
      cases h

theorem lastKeyLe_isSome_mono {ks : List LogId} {i j : Nat} (hij : i ≤ j) {a : LogId}
    (h : lastKeyLe ks i = some a) : ∃ b, lastKeyLe ks j = some b := by
  cases ks with
  | nil => cases h
  | cons k ks =>
    unfold lastKeyLe at h ⊢
    by_cases hk : k.index ≤ i
    · have hkj : k.index ≤ j := Nat.le_trans hk hij
      rw [if_pos hkj]
      cases lastKeyLe ks j with
      | some r => exact ⟨r, rfl⟩
      | none => exact ⟨k, rfl⟩
    · rw [if_neg hk] at h
      cases h

theorem lastKeyLe_term_mono : ∀ {ks : List LogId}, KeysSorted ks → ∀ {i j : Nat}, i ≤ j →
    ∀ {a b : LogId}, lastKeyLe ks i = some a → lastKeyLe ks j = some b →
      a.term ≤ b.term := by
  intro ks
  induction ks with
  | nil =>
    intro _ i j _ a b h
    cases h
  | cons k ks ih =>
    intro hs i j hij a b ha hb
    have hs2 : KeysSorted ks := (List.pairwise_cons.mp hs).2
    have hall := (List.pairwise_cons.mp hs).1
    unfold lastKeyLe at ha hb
    by_cases hk : k.index ≤ i
    · have hkj : k.index ≤ j := Nat.le_trans hk hij
      rw [if_pos hk] at ha
      rw [if_pos hkj] at hb
      cases hra : lastKeyLe ks i with
      | some ra =>
        rw [hra] at ha
        injection ha with ha2
        subst ha2
        obtain ⟨rb, hrb⟩ := lastKeyLe_isSome_mono hij hra
        rw [hrb] at hb
        injection hb with hb2
        subst hb2
        exact ih hs2 hij hra hrb
      | none =>
        rw [hra] at ha
        injection ha with ha2
        subst ha2
        cases hrb : lastKeyLe ks j with
        | some rb =>
          rw [hrb] at hb
          injection hb with hb2
          subst hb2
          exact (hall rb (lastKeyLe_mem hrb)).2
        | none =>
          rw [hrb] at hb
          injection hb with hb2
          subst hb2
          exact Nat.le_refl _
    · rw [if_neg hk] at ha
      cases ha

theorem LogIdList.get_shape {l : LogIdList} {i : Nat} {lid : LogId}
    (h : l.get i = some lid) :
    lid.index = i ∧ ∃ k, lastKeyLe l.key_log_ids i = some k ∧ lid.term = k.term := by
  unfold LogIdList.get at h
  cases hk : lastKeyLe l.key_log_ids i with
  | none =>
    rw [hk] at h
    cases h
  | some k =>
    cases hl : l.key_log_ids.getLast? with
    | none =>
      rw [hk, hl] at h
      cases h
    | some lst =>
      rw [hk, hl] at h
      dsimp only at h
      by_cases hi : i ≤ lst.index
      · rw [if_pos hi] at h
        injection h with h2
        subst h2
        exact ⟨rfl, k, rfl, rfl⟩
      · rw [if_neg hi] at h
        cases h

theorem LogIdList.get_mono {l : LogIdList} (hs : KeysSorted l.key_log_ids) {i j : Nat}
    (hij : i ≤ j) {a s : LogId} (ha : l.get i = some a) (hsj : l.get j = some s) :
    LogId.le a s := by
  obtain ⟨hai, k1, hk1, hat⟩ := LogIdList.get_shape ha
  obtain ⟨hsi, k2, hk2, hst⟩ := LogIdList.get_shape hsj
  have hterm := lastKeyLe_term_mono hs hij hk1 hk2
  refine LogId.le_of_comps ?_ ?_
  · rw [hat, hst]
    exact hterm
  · rw [hai, hsi]
    exact hij

/-- C1 counterexample: with the snapshot at (1, 10), max_keep 0 and
batch 1, `calc_purge_upto` returns the log id at index 10 — the snapshot's
own last log id — not one at index `10 + 1 - 0 = 11` as the claim states. -/
theorem calc_purge_upto_claim_cex :
    calc_purge_upto cfgC1 stC1 = some (LogId.mk 1 10) ∧
    stC1.snapshot_meta.last_log_id = some (LogId.mk 1 10) ∧
    ¬ (LogId.mk 1 10).index =
      (LogId.mk 1 10).index + 1 - cfgC1.max_in_snapshot_log_to_keep := by
  refine ⟨by decide, by decide, by decide⟩

/-- C1 amended: `calc_purge_upto` returns `None` unless
`last_purged.next_index() + batch_size ≤ purge_end` where
`purge_end = snapshot.last_log_id.next_index() - max_keep`; when it returns
`Some(log_id)`, that log id sits at index `purge_end - 1`, i.e. at
`snapshot.last_log_id.index - max_keep`, and never exceeds
`snapshot_meta.last_log_id`. -/
theorem calc_purge_upto_amended (cfg : EngineConfig) (st : RaftState)
    (hbatch : 1 ≤ cfg.purge_batch_size)
    (hsorted : KeysSorted st.log_ids.key_log_ids)
    (hS : ∀ s, st.snapshot_meta.last_log_id = some s →
      st.log_ids.get s.index = some s) :
    (nextIndex st.last_purged_log_id + cfg.purge_batch_size > purgeEnd cfg st →
      calc_purge_upto cfg st = none) ∧
    (∀ lid, calc_purge_upto cfg st = some lid →
      lid.index = purgeEnd cfg st - 1 ∧
      (∀ s, st.snapshot_meta.last_log_id = some s →
        lid.index = s.index - cfg.max_in_snapshot_log_to_keep) ∧
      optLe (some lid) st.snapshot_meta.last_log_id) := by
  constructor
  · intro h
    unfold calc_purge_upto
    rw [if_pos h]
  · intro lid h
    unfold calc_purge_upto at h
    by_cases hc : nextIndex st.last_purged_log_id + cfg.purge_batch_size > purgeEnd cfg st
    · rw [if_pos hc] at h
      cases h
    · rw [if_neg hc] at h
      have hpe : 1 ≤ purgeEnd cfg st := by omega
      have hidx : lid.index = purgeEnd cfg st - 1 := (LogIdList.get_shape h).1
      cases hsnap : st.snapshot_meta.last_log_id with
      | none =>
        exfalso
        have hz : purgeEnd cfg st = 0 := by
          unfold purgeEnd
          rw [hsnap]
          simp [nextIndex]
        omega
      | some s =>
        have hpeS : purgeEnd cfg st =
            s.index + 1 - cfg.max_in_snapshot_log_to_keep := by
          unfold purgeEnd
          rw [hsnap]
          rfl
        have hmk : cfg.max_in_snapshot_log_to_keep ≤ s.index := by omega
        refine ⟨hidx, ?_, ?_⟩
        · intro s2 hs2
          injection hs2 with hs3
          subst hs3
          omega
        · have hgetS : st.log_ids.get s.index = some s := hS s hsnap
          have hle : purgeEnd cfg st - 1 ≤ s.index := by omega
          exact LogIdList.get_mono hsorted hle h hgetS

theorem calc_purge_upto_amended_witness :
    (1 ≤ cfgC1w.purge_batch_size) ∧
    ((LogId.mk 1 8).index = purgeEnd cfgC1w stC1 - 1 ∧
      (∀ s, stC1.snapshot_meta.last_log_id = some s →
        (LogId.mk 1 8).index = s.index - cfgC1w.max_in_snapshot_log_to_keep) ∧
      optLe (some (LogId.mk 1 8)) stC1.snapshot_meta.last_log_id) := by
  refine ⟨by decide, ?_⟩
  refine (calc_purge_upto_amended cfgC1w stC1 (by decide) (by decide) ?_).2
    (LogId.mk 1 8) (by decide)
  intro s h
  have h2 : some (LogId.mk 1 10) = some s := h
  injection h2 with h3
  subst h3
  decide

end OpenRaft
